import Mathlib

/-!
Verification development for the TablesToHtml repository (main.py, models.py).

The repository is a small web application: a home page that renders all stored
horse-racing meetings with their races and horses, and an import endpoint that
fetches meeting data from a remote GraphQL service and inserts the meetings and
races that are not stored yet.

The embedding below translates the data model of models.py into Lean row
structures and a DB state, and the two request handlers plus the fetcher of
main.py into pure functions.  Database exceptions and transaction semantics are
made explicit: the import handler takes an optional fault describing where an
exception is raised, and returns the resulting page outcome, the persistent
database state after the request, and the trace of statements issued inside the
transaction.
-/

namespace TablesToHtml

/-! ## Data model (models.py)

Row types for the four tables.  The autoincrement primary keys mtgsid and
racesid are modelled as integers assigned at insert time; fields rows link
races to horses through racesid and horseid, exactly as the foreign keys in
models.py. -/

structure MtgRow where
  mtgsid : Int
  meetCode : String
  date : String
  venueAbbr : String
  meetUrl : String
  deriving Repr, DecidableEq

structure RaceRow where
  racesid : Int
  meetCode : String
  raceNum : Int
  distance : String
  deriving Repr, DecidableEq

structure FieldRow where
  racesid : Int
  horseid : Int
  deriving Repr, DecidableEq

structure HorseRow where
  horseid : Int
  horsename : String
  deriving Repr, DecidableEq

/-- The persistent database state: the contents of the four tables. -/
structure DB where
  mtgs : List MtgRow
  races : List RaceRow
  fields : List FieldRow
  horses : List HorseRow
  deriving Repr, DecidableEq

/-! ## Remote response (the parsed JSON body used by fetch_data) -/

/-- One race of a remote meeting: the keys raceNumber and distance read at
main.py lines 79-80. -/
structure RemoteRace where
  raceNumber : Int
  distance : String
  deriving Repr, DecidableEq

/-- One remote meeting: the keys read at main.py lines 69-76. -/
structure RemoteMtg where
  meetCode : String
  date : String
  meetUrl : String
  venueAbbr : String
  races : List RemoteRace
  deriving Repr, DecidableEq

/-- The parsed JSON response body.  isEmpty models the Python falsiness test
on the whole body; errors holds the stringified value of the top-level
key named errors when that key is present; meetings holds the list under
data.GetMeetingByMonth. -/
structure Response where
  isEmpty : Bool
  errors : Option String
  meetings : List RemoteMtg
  deriving Repr, DecidableEq

/-! ## Import staging (main.py lines 60-81) -/

/-- The set of meetCodes already stored, from the select at lines 61-62. -/
def existingMeetCodes (db : DB) : List String :=
  db.mtgs.map (fun r => r.meetCode)

/-- A staged meeting row: the dict appended at lines 70-75. -/
structure StagedMtg where
  meetCode : String
  date : String
  meetUrl : String
  venueAbbr : String
  deriving Repr, DecidableEq

/-- A staged race row: the dict appended at lines 77-81. -/
structure StagedRace where
  meetCode : String
  raceNum : Int
  distance : String
  deriving Repr, DecidableEq

def mtgRowData (m : RemoteMtg) : StagedMtg :=
  { meetCode := m.meetCode, date := m.date, meetUrl := m.meetUrl,
    venueAbbr := m.venueAbbr }

def raceRowData (code : String) (r : RemoteRace) : StagedRace :=
  { meetCode := code, raceNum := r.raceNumber, distance := r.distance }

/-- The loop of main.py lines 68-81: walk the remote meetings, skip the ones
whose meetCode is already stored, append a meeting dict and one race dict per
race for the others. -/
def stageLoop (meetings : List RemoteMtg) (existing : List String)
    (acc : List StagedMtg × List StagedRace) : List StagedMtg × List StagedRace :=
  match meetings with
  | [] => acc
  | m :: rest =>
    if m.meetCode ∈ existing then
      stageLoop rest existing acc
    else
      stageLoop rest existing
        (acc.1 ++ [mtgRowData m], acc.2 ++ m.races.map (raceRowData m.meetCode))

def stage (meetings : List RemoteMtg) (existing : List String) :
    List StagedMtg × List StagedRace :=
  stageLoop meetings existing ([], [])

/-- The remote meetings whose meetCode is not already stored. -/
def newMeetings (meetings : List RemoteMtg) (existing : List String) :
    List RemoteMtg :=
  meetings.filter (fun m => decide (m.meetCode ∉ existing))

/-! ## Inserts and the transaction (main.py lines 83-88) -/

/-- Next autoincrement id: one more than the largest id used so far. -/
def nextId (ids : List Int) : Int :=
  ids.foldr max 0 + 1

/-- Bulk insert of staged meeting rows, assigning mtgsid by autoincrement. -/
def insertMtgRows (db : DB) (rows : List StagedMtg) : DB :=
  rows.foldl
    (fun d r =>
      { d with
        mtgs := d.mtgs ++
          [{ mtgsid := nextId (d.mtgs.map (fun x => x.mtgsid)),
             meetCode := r.meetCode, date := r.date,
             venueAbbr := r.venueAbbr, meetUrl := r.meetUrl }] })
    db

/-- Bulk insert of staged race rows, assigning racesid by autoincrement. -/
def insertRaceRows (db : DB) (rows : List StagedRace) : DB :=
  rows.foldl
    (fun d r =>
      { d with
        races := d.races ++
          [{ racesid := nextId (d.races.map (fun x => x.racesid)),
             meetCode := r.meetCode, raceNum := r.raceNum,
             distance := r.distance }] })
    db

/-- A statement issued inside the import transaction. -/
inductive Op where
  | insertMtgs (rows : List StagedMtg)
  | insertRaces (rows : List StagedRace)
  deriving Repr, DecidableEq

def applyOp (db : DB) (op : Op) : DB :=
  match op with
  | Op.insertMtgs rows => insertMtgRows db rows
  | Op.insertRaces rows => insertRaceRows db rows

def applyOps (db : DB) (ops : List Op) : DB :=
  ops.foldl applyOp db

/-- The statements issued at lines 84-87: the meetings bulk insert when the
staged meetings list is nonempty, then the races bulk insert when the staged
races list is nonempty. -/
def importOps (mtgsData : List StagedMtg) (racesData : List StagedRace) :
    List Op :=
  (if mtgsData.isEmpty then [] else [Op.insertMtgs mtgsData]) ++
  (if racesData.isEmpty then [] else [Op.insertRaces racesData])

/-- An event observed during the import request: a statement issued to the
session, or the single commit of line 88. -/
inductive Event where
  | exec (op : Op)
  | commitEvent
  deriving Repr, DecidableEq

def Op.isMtgsOp : Op → Bool
  | Op.insertMtgs _ => true
  | Op.insertRaces _ => false

/-- A point at which the try block of fetch_data raises: while reading the
stored meetCodes, while executing either bulk insert, or at the commit
itself.  Each carries the exception message str e reported at line 94. -/
inductive ImportFault where
  | atSelect (msg : String)
  | atInsertMtgs (msg : String)
  | atInsertRaces (msg : String)
  | atCommit (msg : String)
  deriving Repr, DecidableEq

def ImportFault.msg : ImportFault → String
  | ImportFault.atSelect m => m
  | ImportFault.atInsertMtgs m => m
  | ImportFault.atInsertRaces m => m
  | ImportFault.atCommit m => m

/-- What the handler responds with: the home template rendered with an error
string, or a RedirectResponse with a status code. -/
inductive Outcome where
  | errorPage (msg : String)
  | redirect (status : Nat)
  deriving Repr, DecidableEq

/-- The error message built at lines 55-57. -/
def fetchErrorMessage (resp : Response) : String :=
  match resp.errors with
  | some e => "Failed to fetch data." ++ " Errors: " ++ e
  | none => "Failed to fetch data."

/-- The observable result of one POST /fetch-data request: the response sent
to the client, the persistent database state afterwards, and the trace of
events inside the transaction. -/
structure ImportResult where
  outcome : Outcome
  db : DB
  events : List Event
  deriving Repr, DecidableEq

/-- main.py fetch_data, lines 50-94, given the already-fetched response body.
The fault argument tells whether (and where) a database call raises; an
exception skips the commit, so the session transaction is discarded and the
persistent state is unchanged, and the handler answers with the error page of
line 94 carrying the exception message. -/
def fetch_data (resp : Response) (db : DB) (fault : Option ImportFault) :
    ImportResult :=
  if resp.isEmpty || resp.errors.isSome then
    { outcome := Outcome.errorPage (fetchErrorMessage resp),
      db := db, events := [] }
  else
    let staged := stage resp.meetings (existingMeetCodes db)
    let ops := importOps staged.1 staged.2
    match fault with
    | some (ImportFault.atSelect m) =>
      { outcome := Outcome.errorPage m, db := db, events := [] }
    | some (ImportFault.atInsertMtgs m) =>
      { outcome := Outcome.errorPage m, db := db, events := [] }
    | some (ImportFault.atInsertRaces m) =>
      { outcome := Outcome.errorPage m, db := db,
        events := (ops.filter Op.isMtgsOp).map Event.exec }
    | some (ImportFault.atCommit m) =>
      { outcome := Outcome.errorPage m, db := db,
        events := ops.map Event.exec }
    | none =>
      { outcome := Outcome.redirect 303,
        db := applyOps db ops,
        events := ops.map Event.exec ++ [Event.commitEvent] }

/-! ## Home page (main.py read_home, lines 30-48) -/

/-- The ORDER BY of the relationship races in models.py line 29:
ascending race number. -/
def raceLe (a b : RaceRow) : Prop :=
  a.raceNum ≤ b.raceNum

instance : DecidableRel raceLe := fun a b => by
  unfold raceLe; infer_instance

instance : IsTotal RaceRow raceLe :=
  ⟨fun a b => Int.le_total a.raceNum b.raceNum⟩

instance : IsTrans RaceRow raceLe :=
  ⟨fun _ _ _ hab hbc => le_trans hab hbc⟩

/-- The ORDER BY of the home query, main.py line 36: by date, then by
meetCode. -/
def mtgOrder (a b : MtgRow) : Prop :=
  a.date < b.date ∨ (a.date = b.date ∧ a.meetCode ≤ b.meetCode)

instance : DecidableRel mtgOrder := fun a b => by
  unfold mtgOrder; infer_instance

instance : IsTotal MtgRow mtgOrder :=
  ⟨fun a b => by
    unfold mtgOrder
    rcases lt_trichotomy a.date b.date with h | h | h
    · exact Or.inl (Or.inl h)
    · rcases le_total a.meetCode b.meetCode with h2 | h2
      · exact Or.inl (Or.inr ⟨h, h2⟩)
      · exact Or.inr (Or.inr ⟨h.symm, h2⟩)
    · exact Or.inr (Or.inl h)⟩

instance : IsTrans MtgRow mtgOrder :=
  ⟨fun a b c hab hbc => by
    unfold mtgOrder at *
    rcases hab with h1 | ⟨e1, l1⟩
    · rcases hbc with h2 | ⟨e2, _⟩
      · exact Or.inl (lt_trans h1 h2)
      · exact Or.inl (e2 ▸ h1)
    · rcases hbc with h2 | ⟨e2, l2⟩
      · exact Or.inl (e1 ▸ h2)
      · exact Or.inr ⟨e1.trans e2, le_trans l1 l2⟩⟩

/-- The horses of a race, through the fields join table: the secondary
relationship of models.py lines 45-51 (Races.racesid matches Fields.racesid
and Fields.horseid matches Horses.horseid). -/
def horsesOf (db : DB) (r : RaceRow) : List HorseRow :=
  (db.fields.filter (fun f => f.racesid == r.racesid)).flatMap
    (fun f => db.horses.filter (fun h => h.horseid == f.horseid))

/-- A race as rendered on the home page: the row and its eagerly loaded
horses. -/
structure RaceView where
  race : RaceRow
  horses : List HorseRow
  deriving Repr, DecidableEq

/-- A meeting as rendered on the home page: the row and its eagerly loaded
races. -/
structure MtgView where
  mtg : MtgRow
  races : List RaceView
  deriving Repr, DecidableEq

/-- The races of one meeting, related by meetCode and ordered by raceNum
(models.py lines 29 and 34), each with its horses. -/
def racesViewOf (db : DB) (m : MtgRow) : List RaceView :=
  (List.insertionSort raceLe
      (db.races.filter (fun r => r.meetCode == m.meetCode))).map
    (fun r => { race := r, horses := horsesOf db r })

/-- The home query of main.py lines 33-38: all meetings, ordered by date then
meetCode, with races and horses eagerly loaded.  The patch-up loop of lines
41-44 replaces absent collections by empty lists; relationship collections
are lists here, so a meeting with no races and a race with no horses already
carry empty lists. -/
def homeQuery (db : DB) : List MtgView :=
  (List.insertionSort mtgOrder db.mtgs).map
    (fun m => { mtg := m, races := racesViewOf db m })

/-- The rendered home page: HTTP status, the meetings passed to the template,
and the optional error string. -/
structure HomePage where
  status : Nat
  mtgs : List MtgView
  error : Option String
  deriving Repr, DecidableEq

/-- main.py read_home, lines 30-48.  The fault argument tells whether the
query raises, carrying the exception message; the except branch of lines
47-48 renders the same template with an empty meeting list and the message,
still as a 200 response. -/
def read_home (db : DB) (fault : Option String) : HomePage :=
  match fault with
  | some e => { status := 200, mtgs := [], error := some e }
  | none => { status := 200, mtgs := homeQuery db, error := none }

/-! ## The remote fetcher (main.py get_mtgsracesData, lines 96-112) -/

/-- The configuration read from the environment: the GraphQL query text and
the raw headers JSON. -/
structure FetchConfig where
  queryText : String
  headerJson : String
  deriving Repr, DecidableEq

/-- One outbound HTTP request as assembled at lines 102-110. -/
structure GqlRequest where
  host : String
  method : String
  path : String
  queryText : String
  operationName : String
  varYear : Int
  varMonth : Int
  headerJson : String
  deriving Repr, DecidableEq

/-- What the remote endpoint answers: an HTTP status and the response body,
already parsed from JSON. -/
structure HttpResponse where
  status : Nat
  body : Response
  deriving Repr, DecidableEq

/-- The request get_mtgsracesData sends for a given year and month. -/
def mkRequest (cfg : FetchConfig) (year month : Int) : GqlRequest :=
  { host := "graphql.rmdprod.racing.com", method := "POST", path := "/",
    queryText := cfg.queryText,
    operationName := "GetMeetingByMonthWithDetails",
    varYear := year, varMonth := month,
    headerJson := cfg.headerJson }

/-- main.py get_mtgsracesData: issue one POST request and return the parsed
JSON body of whatever the remote answers, never inspecting the HTTP status.
The remote endpoint is a parameter; the function returns the list of requests
it issued together with the parsed body. -/
def get_mtgsracesData (cfg : FetchConfig) (remote : GqlRequest → HttpResponse)
    (year month : Int) : List GqlRequest × Response :=
  let req := mkRequest cfg year month
  ([req], (remote req).body)

/-! ## Characterisation of the staging loop -/

theorem stageLoop_eq (meetings : List RemoteMtg) (existing : List String)
    (acc : List StagedMtg × List StagedRace) :
    stageLoop meetings existing acc =
      (acc.1 ++ (newMeetings meetings existing).map mtgRowData,
       acc.2 ++ (newMeetings meetings existing).flatMap
         (fun m => m.races.map (raceRowData m.meetCode))) := by
  induction meetings generalizing acc with
  | nil => simp [stageLoop, newMeetings]
  | cons m rest ih =>
    by_cases h : m.meetCode ∈ existing
    · simp [stageLoop, h, ih, newMeetings]
    · simp [stageLoop, h, ih, newMeetings, List.append_assoc]

theorem stage_eq (meetings : List RemoteMtg) (existing : List String) :
    stage meetings existing =
      ((newMeetings meetings existing).map mtgRowData,
       (newMeetings meetings existing).flatMap
         (fun m => m.races.map (raceRowData m.meetCode))) := by
  simp [stage, stageLoop_eq]

/-- Claim C1: for a response carrying a list of remote meetings, the import
stages one meeting record (code, date, URL, venue) per remote meeting whose
meetCode is not already stored, and one race record (code, race number,
distance) per race of such a meeting; importing the one-meeting two-race
scenario into empty storage yields exactly one meeting row with code M1 and
exactly two race rows referencing M1. -/
theorem import_stages_one_mtg_and_one_race_per_race :
    (∀ (meetings : List RemoteMtg) (existing : List String),
      stage meetings existing =
        ((newMeetings meetings existing).map mtgRowData,
         (newMeetings meetings existing).flatMap
           (fun m => m.races.map (raceRowData m.meetCode)))) ∧
    (let resp : Response :=
       { isEmpty := false, errors := none,
         meetings := [{ meetCode := "M1", date := "2024-11-01",
                        meetUrl := "http://x", venueAbbr := "ABC",
                        races := [{ raceNumber := 1, distance := "1200" },
                                  { raceNumber := 2, distance := "1400" }] }] }
     let res := fetch_data resp { mtgs := [], races := [], fields := [], horses := [] } none
     res.db.mtgs.length = 1 ∧
     (res.db.mtgs.filter (fun r => r.meetCode == "M1")).length = 1 ∧
     res.db.races.length = 2 ∧
     (res.db.races.filter (fun r => r.meetCode == "M1")).length = 2) :=
  ⟨fun meetings existing => stage_eq meetings existing, by decide⟩

/-! ## Structure of the bulk inserts -/

theorem insertMtgRows_cons (db : DB) (r : StagedMtg) (rs : List StagedMtg) :
    insertMtgRows db (r :: rs) =
      insertMtgRows
        { db with mtgs := db.mtgs ++
            [{ mtgsid := nextId (db.mtgs.map (fun x => x.mtgsid)),
               meetCode := r.meetCode, date := r.date,
               venueAbbr := r.venueAbbr, meetUrl := r.meetUrl }] } rs := rfl

theorem insertRaceRows_cons (db : DB) (r : StagedRace) (rs : List StagedRace) :
    insertRaceRows db (r :: rs) =
      insertRaceRows
        { db with races := db.races ++
            [{ racesid := nextId (db.races.map (fun x => x.racesid)),
               meetCode := r.meetCode, raceNum := r.raceNum,
               distance := r.distance }] } rs := rfl

/-- A bulk insert of meeting rows appends one row per staged meeting, in
order, keeping the staged meetCodes, and touches no other table. -/
theorem insertMtgRows_spec (rows : List StagedMtg) (db : DB) :
    ∃ tail : List MtgRow,
      (insertMtgRows db rows).mtgs = db.mtgs ++ tail ∧
      tail.map MtgRow.meetCode = rows.map StagedMtg.meetCode ∧
      (insertMtgRows db rows).races = db.races ∧
      (insertMtgRows db rows).fields = db.fields ∧
      (insertMtgRows db rows).horses = db.horses := by
  induction rows generalizing db with
  | nil => exact ⟨[], by simp [insertMtgRows], by simp, rfl, rfl, rfl⟩
  | cons r rs ih =>
    rw [insertMtgRows_cons]
    obtain ⟨tail, h1, h2, h3, h4, h5⟩ := ih _
    refine ⟨{ mtgsid := nextId (db.mtgs.map (fun x => x.mtgsid)),
              meetCode := r.meetCode, date := r.date,
              venueAbbr := r.venueAbbr, meetUrl := r.meetUrl } :: tail,
            ?_, ?_, ?_, ?_, ?_⟩
    · rw [h1]; simp
    · simp [h2]
    · rw [h3]
    · rw [h4]
    · rw [h5]

/-- A bulk insert of race rows appends one row per staged race, in order,
keeping the staged meetCodes, and touches no other table. -/
theorem insertRaceRows_spec (rows : List StagedRace) (db : DB) :
    ∃ tail : List RaceRow,
      (insertRaceRows db rows).races = db.races ++ tail ∧
      tail.map RaceRow.meetCode = rows.map StagedRace.meetCode ∧
      (insertRaceRows db rows).mtgs = db.mtgs ∧
      (insertRaceRows db rows).fields = db.fields ∧
      (insertRaceRows db rows).horses = db.horses := by
  induction rows generalizing db with
  | nil => exact ⟨[], by simp [insertRaceRows], by simp, rfl, rfl, rfl⟩
  | cons r rs ih =>
    rw [insertRaceRows_cons]
    obtain ⟨tail, h1, h2, h3, h4, h5⟩ := ih _
    refine ⟨{ racesid := nextId (db.races.map (fun x => x.racesid)),
              meetCode := r.meetCode, raceNum := r.raceNum,
              distance := r.distance } :: tail,
            ?_, ?_, ?_, ?_, ?_⟩
    · rw [h1]; simp
    · simp [h2]
    · rw [h3]
    · rw [h4]
    · rw [h5]

/-- On the success path, fetch_data appends to the meetings table exactly one
row per staged meeting (same meetCodes, in order), appends to the races table
exactly one row per staged race, leaves fields and horses untouched, and
answers with the 303 redirect. -/
theorem fetch_data_success_spec (resp : Response) (db : DB)
    (hne : resp.isEmpty = false) (herr : resp.errors = none) :
    ∃ (mt : List MtgRow) (rt : List RaceRow),
      (fetch_data resp db none).db.mtgs = db.mtgs ++ mt ∧
      mt.map MtgRow.meetCode =
        (stage resp.meetings (existingMeetCodes db)).1.map StagedMtg.meetCode ∧
      (fetch_data resp db none).db.races = db.races ++ rt ∧
      rt.map RaceRow.meetCode =
        (stage resp.meetings (existingMeetCodes db)).2.map StagedRace.meetCode ∧
      (fetch_data resp db none).db.fields = db.fields ∧
      (fetch_data resp db none).db.horses = db.horses ∧
      (fetch_data resp db none).outcome = Outcome.redirect 303 := by
  have hcond : (resp.isEmpty || resp.errors.isSome) = false := by
    simp [hne, herr]
  unfold fetch_data
  rw [hcond]
  simp only [Bool.false_eq_true, if_false]
  set s1 := (stage resp.meetings (existingMeetCodes db)).1 with hs1
  set s2 := (stage resp.meetings (existingMeetCodes db)).2 with hs2
  by_cases h1 : s1.isEmpty
  · by_cases h2 : s2.isEmpty
    · refine ⟨[], [], ?_, ?_, ?_, ?_, ?_, ?_, ?_⟩ <;>
        simp [importOps, h1, h2, applyOps,
              List.isEmpty_iff.mp h1, List.isEmpty_iff.mp h2]
    · obtain ⟨rt, g1, g2, g3, g4, g5⟩ := insertRaceRows_spec s2 db
      refine ⟨[], rt, ?_, ?_, ?_, ?_, ?_, ?_, ?_⟩ <;>
        simp [importOps, h1, h2, applyOps, applyOp, g1, g2, g3, g4, g5,
              List.isEmpty_iff.mp h1]
  · by_cases h2 : s2.isEmpty
    · obtain ⟨mt, g1, g2, g3, g4, g5⟩ := insertMtgRows_spec s1 db
      refine ⟨mt, [], ?_, ?_, ?_, ?_, ?_, ?_, ?_⟩ <;>
        simp [importOps, h1, h2, applyOps, applyOp, g1, g2, g3, g4, g5,
              List.isEmpty_iff.mp h2]
    · obtain ⟨mt, g1, g2, g3, g4, g5⟩ := insertMtgRows_spec s1 db
      obtain ⟨rt, k1, k2, k3, k4, k5⟩ := insertRaceRows_spec s2 (insertMtgRows db s1)
      refine ⟨mt, rt, ?_, ?_, ?_, ?_, ?_, ?_, ?_⟩ <;>
        simp [importOps, h1, h2, applyOps, applyOp, g1, g2, g3, g4, g5,
              k1, k2, k3, k4, k5]

theorem count_commit_map_exec (ops : List Op) :
    (ops.map Event.exec).count Event.commitEvent = 0 := by
  rw [List.count_eq_zero]
  intro h
  rcases List.mem_map.mp h with ⟨op, _, habs⟩
  exact Event.noConfusion habs

/-- Importing a response with no meetings list entry: the sample response and
database used to instantiate the transaction claim. -/
def respC2 : Response :=
  { isEmpty := false, errors := none,
    meetings := [{ meetCode := "A", date := "2024-11-02", meetUrl := "u",
                   venueAbbr := "V",
                   races := [{ raceNumber := 1, distance := "1000" }] }] }

def dbC2 : DB := { mtgs := [], races := [], fields := [], horses := [] }

/-- Claim C2: within one import run every staged meeting insert precedes every
staged race insert, the commit happens at most once, and the run is atomic:
with no exception every staged row is persisted (appended, with the staged
meetCodes) and the commit happens exactly once; with an exception at any
database step the persistent state is unchanged, no commit happens, and the
exception message is reported on the error page. -/
theorem import_mtgs_before_races_and_atomic (resp : Response) (db : DB)
    (fault : Option ImportFault)
    (hne : resp.isEmpty = false) (herr : resp.errors = none) :
    (∃ pre post, (fetch_data resp db fault).events = pre ++ post ∧
       (∀ e ∈ pre, ∀ rows, e ≠ Event.exec (Op.insertRaces rows)) ∧
       (∀ e ∈ post, ∀ rows, e ≠ Event.exec (Op.insertMtgs rows))) ∧
    ((fetch_data resp db fault).events.count Event.commitEvent ≤ 1) ∧
    (∀ f, fault = some f →
       (fetch_data resp db fault).db = db ∧
       (fetch_data resp db fault).outcome = Outcome.errorPage f.msg ∧
       (fetch_data resp db fault).events.count Event.commitEvent = 0) ∧
    (fault = none →
       (∃ (mt : List MtgRow) (rt : List RaceRow),
          (fetch_data resp db none).db.mtgs = db.mtgs ++ mt ∧
          mt.map MtgRow.meetCode =
            (stage resp.meetings (existingMeetCodes db)).1.map StagedMtg.meetCode ∧
          (fetch_data resp db none).db.races = db.races ++ rt ∧
          rt.map RaceRow.meetCode =
            (stage resp.meetings (existingMeetCodes db)).2.map StagedRace.meetCode) ∧
       (fetch_data resp db none).outcome = Outcome.redirect 303 ∧
       (fetch_data resp db none).events.count Event.commitEvent = 1) := by
  have hcond : (resp.isEmpty || resp.errors.isSome) = false := by
    simp [hne, herr]
  set s1 := (stage resp.meetings (existingMeetCodes db)).1 with hs1
  set s2 := (stage resp.meetings (existingMeetCodes db)).2 with hs2
  have hops : importOps s1 s2 =
      (if s1.isEmpty then [] else [Op.insertMtgs s1]) ++
      (if s2.isEmpty then [] else [Op.insertRaces s2]) := rfl
  have hpre : ∀ e ∈ (if s1.isEmpty then [] else [Op.insertMtgs s1]).map Event.exec,
      ∀ rows, e ≠ Event.exec (Op.insertRaces rows) := by
    intro e he rows
    by_cases h : s1.isEmpty <;> simp [h] at he
    subst he
    intro habs
    exact Op.noConfusion (Event.exec.inj habs)
  have hpost : ∀ e ∈ (if s2.isEmpty then [] else [Op.insertRaces s2]).map Event.exec,
      ∀ rows, e ≠ Event.exec (Op.insertMtgs rows) := by
    intro e he rows
    by_cases h : s2.isEmpty <;> simp [h] at he
    subst he
    intro habs
    exact Op.noConfusion (Event.exec.inj habs)
  have hfilter : (importOps s1 s2).filter Op.isMtgsOp =
      (if s1.isEmpty then [] else [Op.insertMtgs s1]) := by
    rw [hops, List.filter_append]
    by_cases h1 : s1.isEmpty <;> by_cases h2 : s2.isEmpty <;>
      simp [h1, h2, Op.isMtgsOp]
  match fault with
  | none =>
    refine ⟨?_, ?_, ?_, ?_⟩
    · refine ⟨(if s1.isEmpty then [] else [Op.insertMtgs s1]).map Event.exec,
              (if s2.isEmpty then [] else [Op.insertRaces s2]).map Event.exec
                ++ [Event.commitEvent], ?_, hpre, ?_⟩
      · show (fetch_data resp db none).events = _
        unfold fetch_data
        rw [hcond]
        simp only [Bool.false_eq_true, if_false]
        rw [← hs1, ← hs2, hops]
        simp [List.map_append, List.append_assoc]
      · intro e he rows
        rcases List.mem_append.mp he with h | h
        · exact hpost e h rows
        · simp at h
          subst h
          intro habs
          exact Event.noConfusion habs
    · show (fetch_data resp db none).events.count Event.commitEvent ≤ 1
      unfold fetch_data
      rw [hcond]
      simp only [Bool.false_eq_true, if_false]
      rw [← hs1, ← hs2]
      simp [List.count_append, count_commit_map_exec, List.count_singleton]
    · intro f hf
      exact absurd hf (by simp)
    · intro _
      obtain ⟨mt, rt, g1, g2, g3, g4, _, _, g7⟩ :=
        fetch_data_success_spec resp db hne herr
      refine ⟨⟨mt, rt, g1, ?_, g3, ?_⟩, g7, ?_⟩
      · rw [g2, ← hs1]
      · rw [g4, ← hs2]
      · show (fetch_data resp db none).events.count Event.commitEvent = 1
        unfold fetch_data
        rw [hcond]
        simp only [Bool.false_eq_true, if_false]
        rw [← hs1, ← hs2]
        simp [List.count_append, count_commit_map_exec, List.count_singleton]
  | some f =>
    have hdbeq : (fetch_data resp db (some f)).db = db := by
      unfold fetch_data
      rw [hcond]
      simp only [Bool.false_eq_true, if_false]
      cases f <;> rfl
    have houtcome : (fetch_data resp db (some f)).outcome =
        Outcome.errorPage f.msg := by
      unfold fetch_data
      rw [hcond]
      simp only [Bool.false_eq_true, if_false]
      cases f <;> rfl
    have hevents : (fetch_data resp db (some f)).events = [] ∨
        (fetch_data resp db (some f)).events =
          ((importOps s1 s2).filter Op.isMtgsOp).map Event.exec ∨
        (fetch_data resp db (some f)).events =
          (importOps s1 s2).map Event.exec := by
      unfold fetch_data
      rw [hcond]
      simp only [Bool.false_eq_true, if_false]
      cases f
      · exact Or.inl rfl
      · exact Or.inl rfl
      · exact Or.inr (Or.inl (by rw [← hs1, ← hs2]))
      · exact Or.inr (Or.inr (by rw [← hs1, ← hs2]))
    have hcount : (fetch_data resp db (some f)).events.count Event.commitEvent = 0 := by
      rcases hevents with h | h | h <;> rw [h] <;>
        simp [count_commit_map_exec]
    refine ⟨?_, ?_, ?_, ?_⟩
    · rcases hevents with h | h | h
      · exact ⟨[], [], by simp [h], by simp, by simp⟩
      · refine ⟨(if s1.isEmpty then [] else [Op.insertMtgs s1]).map Event.exec, [],
                ?_, hpre, by simp⟩
        rw [h, hfilter, List.append_nil]
      · exact ⟨(if s1.isEmpty then [] else [Op.insertMtgs s1]).map Event.exec,
               (if s2.isEmpty then [] else [Op.insertRaces s2]).map Event.exec,
               by rw [h, hops]; simp [List.map_append], hpre, hpost⟩
    · rw [hcount]; exact Nat.zero_le 1
    · intro g hg
      cases hg
      exact ⟨hdbeq, houtcome, hcount⟩
    · intro habs
      exact absurd habs (by simp)

/-- Instantiation of the transaction claim: an exception at the commit leaves
the empty database unchanged and reports the message, while the fault-free
run answers with the 303 redirect. -/
theorem import_mtgs_before_races_and_atomic_witness :
    (fetch_data respC2 dbC2 (some (ImportFault.atCommit "boom"))).db = dbC2 ∧
    (fetch_data respC2 dbC2 (some (ImportFault.atCommit "boom"))).outcome =
      Outcome.errorPage "boom" ∧
    (fetch_data respC2 dbC2 none).outcome = Outcome.redirect 303 := by
  have h1 := import_mtgs_before_races_and_atomic respC2 dbC2
    (some (ImportFault.atCommit "boom")) rfl rfl
  have h2 := import_mtgs_before_races_and_atomic respC2 dbC2 none rfl rfl
  obtain ⟨-, -, hsome, -⟩ := h1
  obtain ⟨hdb, hout, -⟩ := hsome (ImportFault.atCommit "boom") rfl
  obtain ⟨-, -, -, hnone⟩ := h2
  obtain ⟨-, hred, -⟩ := hnone rfl
  exact ⟨hdb, hout, hred⟩

/-! ## Skipping already-stored meetings -/

/-- Every staged meeting row and every staged race row carries a meetCode that
is not among the stored ones. -/
theorem stage_codes_not_existing (meetings : List RemoteMtg)
    (existing : List String) :
    (∀ r ∈ (stage meetings existing).1, r.meetCode ∉ existing) ∧
    (∀ r ∈ (stage meetings existing).2, r.meetCode ∉ existing) := by
  rw [stage_eq]
  constructor
  · intro r hr
    rcases List.mem_map.mp hr with ⟨m, hm, hmr⟩
    rcases List.mem_filter.mp hm with ⟨-, hnew⟩
    subst hmr
    simpa [mtgRowData] using of_decide_eq_true hnew
  · intro r hr
    rcases List.mem_flatMap.mp hr with ⟨m, hm, hmr⟩
    rcases List.mem_filter.mp hm with ⟨-, hnew⟩
    rcases List.mem_map.mp hmr with ⟨race, -, hrr⟩
    subst hrr
    simpa [raceRowData] using of_decide_eq_true hnew

/-- When every remote meetCode is already stored, nothing is staged. -/
theorem stage_all_existing (meetings : List RemoteMtg) (existing : List String)
    (h : ∀ m ∈ meetings, m.meetCode ∈ existing) :
    stage meetings existing = ([], []) := by
  rw [stage_eq]
  have hnil : newMeetings meetings existing = [] := by
    rw [newMeetings, List.filter_eq_nil_iff]
    intro m hm
    simp [h m hm]
  simp [hnil]

/-- When every remote meetCode is already stored, the fault-free import run
issues no insert, commits the empty transaction, leaves the database exactly
as it was, and answers with the 303 redirect. -/
theorem fetch_data_no_new (resp : Response) (db : DB)
    (hne : resp.isEmpty = false) (herr : resp.errors = none)
    (hall : ∀ m ∈ resp.meetings, m.meetCode ∈ existingMeetCodes db) :
    fetch_data resp db none =
      { outcome := Outcome.redirect 303, db := db,
        events := [Event.commitEvent] } := by
  have hcond : (resp.isEmpty || resp.errors.isSome) = false := by
    simp [hne, herr]
  unfold fetch_data
  rw [hcond]
  simp only [Bool.false_eq_true, if_false]
  rw [stage_all_existing resp.meetings (existingMeetCodes db) hall]
  rfl

/-- The stored meetCodes after a fault-free import run are the old ones
followed by the staged ones. -/
theorem existingMeetCodes_after_success (resp : Response) (db : DB)
    (hne : resp.isEmpty = false) (herr : resp.errors = none) :
    existingMeetCodes (fetch_data resp db none).db =
      existingMeetCodes db ++
        (stage resp.meetings (existingMeetCodes db)).1.map StagedMtg.meetCode := by
  obtain ⟨mt, rt, g1, g2, -, -, -, -, -⟩ := fetch_data_success_spec resp db hne herr
  show (fetch_data resp db none).db.mtgs.map (fun r => r.meetCode) = _
  rw [g1, List.map_append]
  unfold existingMeetCodes
  rw [show (fun r : MtgRow => r.meetCode) = MtgRow.meetCode from rfl, g2]
  rfl

/-- Claim C3: the import stages no meeting row whose meetCode is already
stored and no race row belonging to such a meeting, and re-running the import
on the same remote data right after a fault-free run changes nothing, so no
duplicate rows are created. -/
theorem import_never_duplicates_on_refetch (resp : Response) (db : DB)
    (hne : resp.isEmpty = false) (herr : resp.errors = none) :
    (∀ r ∈ (stage resp.meetings (existingMeetCodes db)).1,
        r.meetCode ∉ existingMeetCodes db) ∧
    (∀ r ∈ (stage resp.meetings (existingMeetCodes db)).2,
        r.meetCode ∉ existingMeetCodes db) ∧
    (fetch_data resp (fetch_data resp db none).db none).db =
      (fetch_data resp db none).db := by
  obtain ⟨hm, hr⟩ := stage_codes_not_existing resp.meetings (existingMeetCodes db)
  refine ⟨hm, hr, ?_⟩
  have hall : ∀ m ∈ resp.meetings,
      m.meetCode ∈ existingMeetCodes (fetch_data resp db none).db := by
    intro m hmem
    rw [existingMeetCodes_after_success resp db hne herr]
    by_cases hold : m.meetCode ∈ existingMeetCodes db
    · exact List.mem_append_left _ hold
    · refine List.mem_append_right _ ?_
      rw [stage_eq]
      refine List.mem_map.mpr ?_
      refine ⟨mtgRowData m, ?_, rfl⟩
      refine List.mem_map.mpr ⟨m, ?_, rfl⟩
      exact List.mem_filter.mpr ⟨hmem, decide_eq_true hold⟩
  rw [fetch_data_no_new resp _ hne herr hall]

/-- The sample for the idempotence claim: one stored meeting, a response that
repeats it and adds a new one. -/
def dbC3 : DB :=
  { mtgs := [{ mtgsid := 1, meetCode := "M0", date := "2024-11-01",
               venueAbbr := "V", meetUrl := "u" }],
    races := [], fields := [], horses := [] }

def respC3 : Response :=
  { isEmpty := false, errors := none,
    meetings := [{ meetCode := "M0", date := "2024-11-01", meetUrl := "u",
                   venueAbbr := "V",
                   races := [{ raceNumber := 1, distance := "1200" }] },
                 { meetCode := "M1", date := "2024-11-02", meetUrl := "v",
                   venueAbbr := "W",
                   races := [{ raceNumber := 1, distance := "1400" }] }] }

/-- Instantiation of the idempotence claim: importing the same response twice
gives the same stored state as importing it once. -/
theorem import_never_duplicates_on_refetch_witness :
    (fetch_data respC3 (fetch_data respC3 dbC3 none).db none).db =
      (fetch_data respC3 dbC3 none).db :=
  (import_never_duplicates_on_refetch respC3 dbC3 rfl rfl).2.2

/-- Claim C4: a response that is empty or carries an errors key makes the
importing flow return the error page without touching the database and without
issuing any statement, and the message concatenates the remote error detail
when one is present. -/
theorem import_error_response_aborts (resp : Response) (db : DB)
    (fault : Option ImportFault)
    (h : resp.isEmpty = true ∨ resp.errors.isSome = true) :
    fetch_data resp db fault =
      { outcome := Outcome.errorPage (fetchErrorMessage resp), db := db,
        events := [] } ∧
    (∀ e, resp.errors = some e →
      fetchErrorMessage resp = "Failed to fetch data." ++ " Errors: " ++ e) ∧
    (resp.errors = none → fetchErrorMessage resp = "Failed to fetch data.") := by
  have hcond : (resp.isEmpty || resp.errors.isSome) = true := by
    rcases h with h | h <;> simp [h]
  refine ⟨?_, ?_, ?_⟩
  · unfold fetch_data
    rw [hcond]
    simp
  · intro e he
    simp [fetchErrorMessage, he]
  · intro he
    simp [fetchErrorMessage, he]

def respC4 : Response :=
  { isEmpty := false, errors := some "remote boom", meetings := [] }

def dbC4 : DB :=
  { mtgs := [{ mtgsid := 1, meetCode := "M0", date := "2024-11-01",
               venueAbbr := "V", meetUrl := "u" }],
    races := [], fields := [], horses := [] }

/-- Instantiation of the abort claim: a response with an errors key leaves the
database untouched and renders the concatenated message. -/
theorem import_error_response_aborts_witness :
    fetch_data respC4 dbC4 none =
      { outcome := Outcome.errorPage (fetchErrorMessage respC4), db := dbC4,
        events := [] } ∧
    fetchErrorMessage respC4 =
      "Failed to fetch data." ++ " Errors: " ++ "remote boom" := by
  have h := import_error_response_aborts respC4 dbC4 none (Or.inr rfl)
  exact ⟨h.1, h.2.1 "remote boom" rfl⟩

/-- Claim C5: a response in which every remote meetCode is already stored
performs no insert, leaves the stored meeting and race counts (indeed the
whole state) unchanged, and still answers with the 303 redirect. -/
theorem import_zero_new_meetings_redirects (resp : Response) (db : DB)
    (hne : resp.isEmpty = false) (herr : resp.errors = none)
    (hall : ∀ m ∈ resp.meetings, m.meetCode ∈ existingMeetCodes db) :
    (fetch_data resp db none).db = db ∧
    (fetch_data resp db none).db.mtgs.length = db.mtgs.length ∧
    (fetch_data resp db none).db.races.length = db.races.length ∧
    (fetch_data resp db none).outcome = Outcome.redirect 303 := by
  rw [fetch_data_no_new resp db hne herr hall]
  exact ⟨rfl, rfl, rfl, rfl⟩

def dbC5 : DB :=
  { mtgs := [{ mtgsid := 1, meetCode := "M0", date := "2024-11-01",
               venueAbbr := "V", meetUrl := "u" }],
    races := [{ racesid := 1, meetCode := "M0", raceNum := 1,
                distance := "1200" }],
    fields := [], horses := [] }

def respC5 : Response :=
  { isEmpty := false, errors := none,
    meetings := [{ meetCode := "M0", date := "2024-11-01", meetUrl := "u",
                   venueAbbr := "V",
                   races := [{ raceNumber := 1, distance := "1200" }] }] }

/-- Instantiation of the zero-new-meetings claim. -/
theorem import_zero_new_meetings_redirects_witness :
    (fetch_data respC5 dbC5 none).db = dbC5 ∧
    (fetch_data respC5 dbC5 none).db.mtgs.length = dbC5.mtgs.length ∧
    (fetch_data respC5 dbC5 none).db.races.length = dbC5.races.length ∧
    (fetch_data respC5 dbC5 none).outcome = Outcome.redirect 303 :=
  import_zero_new_meetings_redirects respC5 dbC5 rfl rfl (by decide)

/-- Claim C9: for a meetCode already stored, the import stages no meeting row
and no race row with that code — even when the remote meeting carries races
missing from storage — and a fault-free run leaves the existing meeting and
race rows exactly in place (new rows are only appended), so the rows filed
under that code are unchanged. -/
theorem import_skips_stored_meeting (resp : Response) (db : DB) (c : String)
    (hne : resp.isEmpty = false) (herr : resp.errors = none)
    (hc : c ∈ existingMeetCodes db) :
    (∀ r ∈ (stage resp.meetings (existingMeetCodes db)).1, r.meetCode ≠ c) ∧
    (∀ r ∈ (stage resp.meetings (existingMeetCodes db)).2, r.meetCode ≠ c) ∧
    (fetch_data resp db none).db.mtgs.take db.mtgs.length = db.mtgs ∧
    (fetch_data resp db none).db.races.take db.races.length = db.races ∧
    (fetch_data resp db none).db.mtgs.filter (fun r => r.meetCode == c) =
      db.mtgs.filter (fun r => r.meetCode == c) ∧
    (fetch_data resp db none).db.races.filter (fun r => r.meetCode == c) =
      db.races.filter (fun r => r.meetCode == c) := by
  obtain ⟨hm, hr⟩ := stage_codes_not_existing resp.meetings (existingMeetCodes db)
  obtain ⟨mt, rt, g1, g2, g3, g4, -, -, -⟩ :=
    fetch_data_success_spec resp db hne herr
  have hmc : ∀ r ∈ (stage resp.meetings (existingMeetCodes db)).1,
      r.meetCode ≠ c := by
    intro r hmem heq
    exact hm r hmem (heq ▸ hc)
  have hrc : ∀ r ∈ (stage resp.meetings (existingMeetCodes db)).2,
      r.meetCode ≠ c := by
    intro r hmem heq
    exact hr r hmem (heq ▸ hc)
  have hmtnil : mt.filter (fun r => r.meetCode == c) = [] := by
    rw [List.filter_eq_nil_iff]
    intro r hmem
    have hcode : r.meetCode ∈ mt.map MtgRow.meetCode :=
      List.mem_map_of_mem _ hmem
    rw [g2] at hcode
    rcases List.mem_map.mp hcode with ⟨s, hs, hsc⟩
    have hner : r.meetCode ≠ c := by
      rw [← hsc]; exact hmc s hs
    simp [hner]
  have hrtnil : rt.filter (fun r => r.meetCode == c) = [] := by
    rw [List.filter_eq_nil_iff]
    intro r hmem
    have hcode : r.meetCode ∈ rt.map RaceRow.meetCode :=
      List.mem_map_of_mem _ hmem
    rw [g4] at hcode
    rcases List.mem_map.mp hcode with ⟨s, hs, hsc⟩
    have hner : r.meetCode ≠ c := by
      rw [← hsc]; exact hrc s hs
    simp [hner]
  refine ⟨hmc, hrc, ?_, ?_, ?_, ?_⟩
  · rw [g1]; exact List.take_left _ _
  · rw [g3]; exact List.take_left _ _
  · rw [g1, List.filter_append, hmtnil, List.append_nil]
  · rw [g3, List.filter_append, hrtnil, List.append_nil]

/-- The sample for the frame claim: meeting M0 is stored with one race, and
the remote copy of M0 carries a second race that is missing from storage. -/
def dbC9 : DB :=
  { mtgs := [{ mtgsid := 1, meetCode := "M0", date := "2024-11-01",
               venueAbbr := "V", meetUrl := "u" }],
    races := [{ racesid := 1, meetCode := "M0", raceNum := 1,
                distance := "1200" }],
    fields := [], horses := [] }

def respC9 : Response :=
  { isEmpty := false, errors := none,
    meetings := [{ meetCode := "M0", date := "2024-11-01", meetUrl := "u",
                   venueAbbr := "V",
                   races := [{ raceNumber := 1, distance := "1200" },
                             { raceNumber := 2, distance := "1400" }] }] }

/-- Instantiation of the frame claim: the remote race 2 of the stored meeting
M0 is never synced, and the rows filed under M0 stay as they were. -/
theorem import_skips_stored_meeting_witness :
    (fetch_data respC9 dbC9 none).db.mtgs.filter (fun r => r.meetCode == "M0") =
      dbC9.mtgs.filter (fun r => r.meetCode == "M0") ∧
    (fetch_data respC9 dbC9 none).db.races.filter (fun r => r.meetCode == "M0") =
      dbC9.races.filter (fun r => r.meetCode == "M0") ∧
    (fetch_data respC9 dbC9 none).db.races.take dbC9.races.length =
      dbC9.races := by
  have h := import_skips_stored_meeting respC9 dbC9 "M0" rfl rfl (by decide)
  exact ⟨h.2.2.2.2.1, h.2.2.2.2.2, h.2.2.2.1⟩

/-! ## Home page claims -/

/-- Claim C6: the home query returns all stored meetings, ordered by date
then meetCode, each meeting carrying exactly its races (as rows related by
meetCode) with their horses eagerly loaded through the fields join; a meeting
with no races carries an empty race list and a race with no linked fields
rows carries an empty horse list. -/
theorem home_query_complete_ordered_eager (db : DB) :
    ((homeQuery db).map MtgView.mtg).Perm db.mtgs ∧
    (homeQuery db).Pairwise (fun a b => mtgOrder a.mtg b.mtg) ∧
    (∀ v ∈ homeQuery db,
       (v.races.map RaceView.race).Perm
         (db.races.filter (fun r => r.meetCode == v.mtg.meetCode))) ∧
    (∀ v ∈ homeQuery db, ∀ rv ∈ v.races, rv.horses = horsesOf db rv.race) ∧
    (∀ v ∈ homeQuery db,
       (∀ r ∈ db.races, r.meetCode ≠ v.mtg.meetCode) → v.races = []) ∧
    (∀ v ∈ homeQuery db, ∀ rv ∈ v.races,
       (∀ f ∈ db.fields, f.racesid ≠ rv.race.racesid) → rv.horses = []) := by
  refine ⟨?_, ?_, ?_, ?_, ?_, ?_⟩
  · have h : (homeQuery db).map MtgView.mtg =
        List.insertionSort mtgOrder db.mtgs := by
      unfold homeQuery
      rw [List.map_map]
      exact List.map_id _
    rw [h]
    exact List.perm_insertionSort _ _
  · unfold homeQuery
    exact List.Pairwise.map _ (fun a b hab => hab)
      (List.sorted_insertionSort mtgOrder db.mtgs)
  · intro v hv
    rcases List.mem_map.mp hv with ⟨m, hm, hvm⟩
    subst hvm
    show ((racesViewOf db m).map RaceView.race).Perm _
    unfold racesViewOf
    rw [List.map_map]
    rw [show (RaceView.race ∘ fun r =>
          ({ race := r, horses := horsesOf db r } : RaceView)) = id from rfl]
    rw [List.map_id]
    exact List.perm_insertionSort _ _
  · intro v hv rv hrv
    rcases List.mem_map.mp hv with ⟨m, hm, hvm⟩
    subst hvm
    rcases List.mem_map.mp hrv with ⟨r, hr, hrr⟩
    subst hrr
    rfl
  · intro v hv hnone
    rcases List.mem_map.mp hv with ⟨m, hm, hvm⟩
    subst hvm
    show racesViewOf db m = []
    unfold racesViewOf
    have hfil : db.races.filter (fun r => r.meetCode == m.meetCode) = [] := by
      rw [List.filter_eq_nil_iff]
      intro r hrmem
      simp [hnone r hrmem]
    rw [hfil]
    rfl
  · intro v hv rv hrv hnone
    rcases List.mem_map.mp hv with ⟨m, hm, hvm⟩
    subst hvm
    rcases List.mem_map.mp hrv with ⟨r, hr, hrr⟩
    subst hrr
    show horsesOf db r = []
    unfold horsesOf
    have hfil : db.fields.filter (fun f => f.racesid == r.racesid) = [] := by
      rw [List.filter_eq_nil_iff]
      intro f hfmem
      simp [hnone f hfmem]
    rw [hfil]
    rfl

/-- The sample database for the home query claims: one meeting whose two
races are stored out of order, no fields and no horses. -/
def dbC6 : DB :=
  { mtgs := [{ mtgsid := 1, meetCode := "M1", date := "2024-11-01",
               venueAbbr := "ABC", meetUrl := "http://x" }],
    races := [{ racesid := 2, meetCode := "M1", raceNum := 2,
                distance := "1400" },
              { racesid := 1, meetCode := "M1", raceNum := 1,
                distance := "1200" }],
    fields := [], horses := [] }

def mtgViewC6 : MtgView :=
  { mtg := { mtgsid := 1, meetCode := "M1", date := "2024-11-01",
             venueAbbr := "ABC", meetUrl := "http://x" },
    races := [{ race := { racesid := 1, meetCode := "M1", raceNum := 1,
                          distance := "1200" }, horses := [] },
              { race := { racesid := 2, meetCode := "M1", raceNum := 2,
                          distance := "1400" }, horses := [] }] }

def raceViewC6 : RaceView :=
  { race := { racesid := 1, meetCode := "M1", raceNum := 1,
              distance := "1200" }, horses := [] }

/-- Instantiation of the home query claim on the sample database. -/
theorem home_query_complete_ordered_eager_witness :
    ((homeQuery dbC6).map MtgView.mtg).Perm dbC6.mtgs ∧
    mtgViewC6 ∈ homeQuery dbC6 ∧
    (mtgViewC6.races.map RaceView.race).Perm
      (dbC6.races.filter (fun r => r.meetCode == mtgViewC6.mtg.meetCode)) ∧
    raceViewC6 ∈ mtgViewC6.races ∧
    raceViewC6.horses = horsesOf dbC6 raceViewC6.race := by
  have h := home_query_complete_ordered_eager dbC6
  have hv : mtgViewC6 ∈ homeQuery dbC6 := by decide
  have hrv : raceViewC6 ∈ mtgViewC6.races := by decide
  exact ⟨h.1, hv, h.2.2.1 mtgViewC6 hv, hrv,
         h.2.2.2.1 mtgViewC6 hv raceViewC6 hrv⟩

/-- Claim C7: whatever exception the home query raises, the handler still
renders the page as a 200 response, with an empty meeting list and the
exception text as the inline error. -/
theorem home_failure_renders_inline_error (db : DB) (fault : Option String) :
    (read_home db fault).status = 200 ∧
    (∀ e, fault = some e →
      read_home db fault = { status := 200, mtgs := [], error := some e }) := by
  constructor
  · cases fault <;> rfl
  · intro e he
    subst he
    rfl

def dbC7 : DB := { mtgs := [], races := [], fields := [], horses := [] }

/-- Instantiation of the degraded-render claim with a concrete exception
message. -/
theorem home_failure_renders_inline_error_witness :
    (read_home dbC7 (some "db down")).status = 200 ∧
    read_home dbC7 (some "db down") =
      { status := 200, mtgs := [], error := some "db down" } := by
  have h := home_failure_renders_inline_error dbC7 (some "db down")
  exact ⟨h.1, h.2 "db down" rfl⟩

/-- Claim C10: in every meeting returned by the home query the races come
sorted in ascending raceNum order, whatever order the race rows are stored
in. -/
theorem home_races_sorted_by_raceNum (db : DB) :
    ∀ v ∈ homeQuery db,
      v.races.Pairwise (fun a b => a.race.raceNum ≤ b.race.raceNum) := by
  intro v hv
  rcases List.mem_map.mp hv with ⟨m, hm, hvm⟩
  subst hvm
  show (racesViewOf db m).Pairwise _
  unfold racesViewOf
  exact List.Pairwise.map _ (fun a b hab => hab)
    (List.sorted_insertionSort raceLe _)

/-- The sample for the race-order claim: three races of one meeting stored in
descending raceNum order. -/
def dbC10 : DB :=
  { mtgs := [{ mtgsid := 1, meetCode := "M2", date := "2024-11-03",
               venueAbbr := "DEF", meetUrl := "http://y" }],
    races := [{ racesid := 3, meetCode := "M2", raceNum := 3,
                distance := "1600" },
              { racesid := 2, meetCode := "M2", raceNum := 2,
                distance := "1400" },
              { racesid := 1, meetCode := "M2", raceNum := 1,
                distance := "1200" }],
    fields := [], horses := [] }

def mtgViewC10 : MtgView :=
  { mtg := { mtgsid := 1, meetCode := "M2", date := "2024-11-03",
             venueAbbr := "DEF", meetUrl := "http://y" },
    races := [{ race := { racesid := 1, meetCode := "M2", raceNum := 1,
                          distance := "1200" }, horses := [] },
              { race := { racesid := 2, meetCode := "M2", raceNum := 2,
                          distance := "1400" }, horses := [] },
              { race := { racesid := 3, meetCode := "M2", raceNum := 3,
                          distance := "1600" }, horses := [] }] }

/-- Instantiation of the race-order claim: rows stored as 3, 2, 1 come back
as 1, 2, 3. -/
theorem home_races_sorted_by_raceNum_witness :
    mtgViewC10 ∈ homeQuery dbC10 ∧
    mtgViewC10.races.Pairwise (fun a b => a.race.raceNum ≤ b.race.raceNum) := by
  have hv : mtgViewC10 ∈ homeQuery dbC10 := by decide
  exact ⟨hv, home_races_sorted_by_raceNum dbC10 mtgViewC10 hv⟩

/-! ## Fetcher claims -/

/-- Claim C8: the fetcher issues exactly one POST request to the fixed host,
whose body carries the configured query text, the operation name, and the
year and month variables, and it returns the parsed body of whatever the
remote answers — the HTTP status never influences the result, so an
HTTP-level failure surfaces only through the shape of the returned body. -/
theorem fetcher_single_post_status_blind (cfg : FetchConfig)
    (remote : GqlRequest → HttpResponse) (year month : Int) :
    (get_mtgsracesData cfg remote year month).1 = [mkRequest cfg year month] ∧
    (mkRequest cfg year month).method = "POST" ∧
    (mkRequest cfg year month).host = "graphql.rmdprod.racing.com" ∧
    (mkRequest cfg year month).queryText = cfg.queryText ∧
    (mkRequest cfg year month).operationName = "GetMeetingByMonthWithDetails" ∧
    (mkRequest cfg year month).varYear = year ∧
    (mkRequest cfg year month).varMonth = month ∧
    (mkRequest cfg year month).headerJson = cfg.headerJson ∧
    (get_mtgsracesData cfg remote year month).2 =
      (remote (mkRequest cfg year month)).body ∧
    (∀ remote2 : GqlRequest → HttpResponse,
       (∀ q, (remote2 q).body = (remote q).body) →
       (get_mtgsracesData cfg remote2 year month).2 =
         (get_mtgsracesData cfg remote year month).2) := by
  refine ⟨rfl, rfl, rfl, rfl, rfl, rfl, rfl, rfl, rfl, ?_⟩
  intro remote2 hbody
  exact hbody _

def cfgC8 : FetchConfig :=
  { queryText := "query GetMeetingByMonthWithDetails", headerJson := "hdr" }

def remoteOkC8 : GqlRequest → HttpResponse := fun _ =>
  { status := 200, body := { isEmpty := false, errors := none, meetings := [] } }

def remoteFailC8 : GqlRequest → HttpResponse := fun _ =>
  { status := 500, body := { isEmpty := false, errors := none, meetings := [] } }

/-- Instantiation of the fetcher claim: one request is issued, and a remote
that answers 500 with the same body yields the same result as one that
answers 200. -/
theorem fetcher_single_post_status_blind_witness :
    (get_mtgsracesData cfgC8 remoteOkC8 2024 11).1 = [mkRequest cfgC8 2024 11] ∧
    (get_mtgsracesData cfgC8 remoteFailC8 2024 11).2 =
      (get_mtgsracesData cfgC8 remoteOkC8 2024 11).2 := by
  have h := fetcher_single_post_status_blind cfgC8 remoteOkC8 2024 11
  exact ⟨h.1, h.2.2.2.2.2.2.2.2.2 remoteFailC8 (fun _ => rfl)⟩

end TablesToHtml
